import Mathlib

/-!
Shallow embedding of the per-package Wasm mass-compilation harness
(`implementation/1-collection/sources-compile.py` and
`implementation/1-collection/utils.py`).

Modelling conventions:
* filesystem paths are lists of path components (`List String`);
* file contents are lists of byte values (`List Nat`);
* modification times and the pre-build timestamp are natural numbers
  (only their ordering matters to the code);
* an external command invocation is summarised by its observable
  outcome: normal exit with a code, timeout expiry, or an operator
  interrupt arriving while the harness waits on the child.
-/

namespace WasmCollect

/-! ## utils.py: parse_range_argument

The source matches the argument against the Python regular expression
`(\d+)\.\.(\d+)$` with `re.match`, converts both groups with `int`, and
raises `ArgumentTypeError` unless the match succeeds and `start < end`.
`re.match` anchors at the start of the string, and the `$` anchor of
Python (without `re.MULTILINE`) accepts either the end of the string or
a position just before one final newline character.  The embedding is
over ASCII strings (`List Char`), where `\d` is `Char.isDigit`. -/

/-- Value of a digit string, as computed by the Python `int` builtin on
a string of decimal digits. -/
def digitsToNat (ds : List Char) : Nat :=
  ds.foldl (fun n c => 10 * n + (c.toNat - 48)) 0

/-- Embedding of `utils.parse_range_argument`.  The greedy `\d+` groups
are the maximal digit runs (which is also what the regex engine commits
to here, since backtracking cannot help against the literal `..` and the
`$` anchor), and the `$` anchor accepts an empty tail or one final
newline. -/
def parse_range_argument (s : List Char) : Except String (Nat × Nat) :=
  let d1 := s.takeWhile Char.isDigit
  let r1 := s.dropWhile Char.isDigit
  if d1 = [] then .error "not a range in the format N..N" else
  if r1.take 2 = ['.', '.'] then
    let r2 := r1.drop 2
    let d2 := r2.takeWhile Char.isDigit
    let r3 := r2.dropWhile Char.isDigit
    if d2 = [] then .error "not a range in the format N..N"
    else if r3 = [] ∨ r3 = ['\n'] then
      if digitsToNat d1 < digitsToNat d2 then .ok (digitsToNat d1, digitsToNat d2)
      else .error "end of range is not greater than start"
    else .error "not a range in the format N..N"
  else .error "not a range in the format N..N"

/-- Acceptance predicate following the words of the claim: the whole
string has the form `<digits>..<digits>` (nothing before, nothing
after), and the second number is strictly greater than the first.
This is the reference for the refinement comparison with
`parse_range_argument`, which embeds the source. -/
def claimed_accepts (s : List Char) : Bool :=
  let d1 := s.takeWhile Char.isDigit
  let r1 := s.dropWhile Char.isDigit
  if d1 = [] then false else
  if r1.take 2 = ['.', '.'] then
    let r2 := r1.drop 2
    if r2 = [] then false
    else if r2.all Char.isDigit then digitsToNat d1 < digitsToNat r2
    else false
  else false

/-! ## utils.py: find_by_filename_bfs

The source iterates `os.walk(path)` (top-down), and for every visited
directory yields `os.path.join(root, f)` for each file `f` of that
directory equal to `filename`.  `os.walk` top-down is a depth-first
pre-order traversal: it yields a directory (with all of its files)
before recursively walking each of its subdirectories in order.  A
directory tree is modelled with files and named subdirectories in the
order the OS reports them. -/

inductive DirTree : Type where
  | node (files : List String) (subdirs : List (String × DirTree)) : DirTree
deriving Inhabited

mutual

/-- Embedding of `utils.find_by_filename_bfs` (the list of all yielded
paths, in yield order).  `root` is the path of the directory being
visited. -/
def find_by_filename_bfs (root : List String) (filename : String) : DirTree → List (List String)
  | .node files subdirs =>
    ((files.filter (fun f => f == filename)).map (fun f => root ++ [f]))
      ++ findInSubdirs root filename subdirs

/-- The recursive walk over the subdirectories of a visited directory,
in directory-listing order. -/
def findInSubdirs (root : List String) (filename : String) : List (String × DirTree) → List (List String)
  | [] => []
  | (d, t) :: rest =>
    find_by_filename_bfs (root ++ [d]) filename t ++ findInSubdirs root filename rest

end

/-- Depth of a returned path below the search root: number of
components added below `root`.  A file directly in the root has
depth 1. -/
def pathDepthBelow (root p : List String) : Nat :=
  p.length - root.length

/-! ## sources-compile.py: artifact scanner

Lines 285-308: after the build stage, every path below the package
source directory is visited; paths whose resolution fails (cyclic
symlinks) are skipped, non-regular files are skipped, files whose
modification time is strictly before `make_before_time` are skipped,
and the remaining files are kept exactly when their first four bytes
are the Wasm magic signature. -/

/-- The fixed Wasm magic signature, the bytes of `b'\0asm'`. -/
def wasmMagic : List Nat := [0x00, 0x61, 0x73, 0x6D]

/-- Embedding of `is_wasm_file_by_magic_bytes`: `f.read(4)` returns at
most the first four bytes of the file, and the source compares them for
equality with `b'\0asm'`. -/
def is_wasm_file_by_magic_bytes (bytes : List Nat) : Bool :=
  bytes.take 4 == wasmMagic

/-- The bytes of the fixed debug-section marker `b'.debug_info'`. -/
def dwarfMarker : List Nat := [46, 100, 101, 98, 117, 103, 95, 105, 110, 102, 111]

/-- Embedding of `contains_dwarf_info`: substring search for the
marker in the whole file contents. -/
def contains_dwarf_info (bytes : List Nat) : Bool :=
  decide (dwarfMarker <:+: bytes)

/-- One directory entry seen by the scanner glob: its path, whether
symlink resolution succeeds, whether it is a regular file, its
modification time, and its contents. -/
structure FileEntry where
  path : List String
  resolvable : Bool
  isFile : Bool
  mtime : Nat
  bytes : List Nat
deriving DecidableEq

/-- The filter the scan loop applies to one entry: resolution must
succeed, the entry must be a regular file, entries from before the
recorded pre-build timestamp are ignored, and the magic-byte check must
pass.  The path of the entry is never consulted. -/
def scanKeep (since : Nat) (e : FileEntry) : Bool :=
  e.resolvable && e.isFile && !(decide (e.mtime < since)) && is_wasm_file_by_magic_bytes e.bytes

/-- Embedding of the `wasm_files` collection loop (lines 294-308). -/
def wasm_files_scan (entries : List FileEntry) (since : Nat) : List FileEntry :=
  entries.filter (scanKeep since)

/-- An entry identical to `e` except for its path (used to state that
classification is independent of file name and extension). -/
def withPath (e : FileEntry) (p : List String) : FileEntry :=
  { e with path := p }

/-! ## sources-compile.py: run_with_logs (lines 133-164)

The child runs as the leader of a fresh process group.  The harness
blocks in `proc.communicate(timeout=...)`.  Three observable outcomes:
the child exits with a code; the timeout expires (`TimeoutExpired` is
raised, the whole group receives `SIGKILL`, and the exception is
re-raised); or some other exception — notably `KeyboardInterrupt` —
arrives during the wait (the bare `except` clause kills the group and
re-raises).  On a non-zero exit code the captured stderr file is read
back and returned; on exit code zero no stderr payload is returned. -/

inductive CommOutcome : Type where
  | exited (code : Int)
  | timeout
  | interrupted
deriving DecidableEq

inductive Exn : Type where
  | timeoutExpired
  | keyboardInterrupt
deriving DecidableEq

/-- The observable result of one `run_with_logs` call. -/
structure RunResult where
  /-- the two log files `<label>.stdout` / `<label>.stderr` exist -/
  logsWritten : Bool
  /-- `os.killpg(..., SIGKILL)` was sent to the process group -/
  groupKilled : Bool
  /-- normal return with the exit code and the optional stderr
  read-back, or the re-raised exception -/
  outcome : Except Exn (Int × Option String)

/-- Embedding of `run_with_logs`, indexed by what happens to the child
and by the contents of the captured stderr file. -/
def run_with_logs (o : CommOutcome) (stderrFile : String) : RunResult :=
  match o with
  | .exited c => ⟨true, false, .ok (c, if c ≠ 0 then some stderrFile else none)⟩
  | .timeout => ⟨true, true, .error .timeoutExpired⟩
  | .interrupted => ⟨true, true, .error .keyboardInterrupt⟩

/-! ## sources-compile.py: the build cascade (lines 200-308)

Directories are numbered; the package source root is `rootDir`.
`configureDir`/`cmakeDir` is the parent directory of the topmost
`configure` / `CMakeLists.txt` marker, or `none` when the marker is
absent.  Each external stage has an outcome.  Control flow of the
source: the `emconfigure` call site catches `TimeoutExpired` (line
221); the `emcmake` call site and the `emmake` call sites catch
nothing, so a timeout there propagates; `KeyboardInterrupt` always
propagates.  The pre-build timestamp is taken (line 257) after the
configure and cmake stages and before every make invocation; then make
runs in the configure directory when it differs from the root (line
279), in the cmake directory when it differs from the root (line 281),
and always at the root (line 283); finally the scan loop runs. -/

structure CascadeWorld where
  rootDir : Nat
  configureDir : Option Nat
  cmakeDir : Option Nat
  configureOutcome : CommOutcome
  cmakeOutcome : CommOutcome
  makeConfigureOutcome : CommOutcome
  makeCmakeOutcome : CommOutcome
  makeToplevelOutcome : CommOutcome
deriving DecidableEq

/-- Events observable in one package build attempt, in order. -/
inductive Ev : Type where
  | configure (dir : Nat)
  | cmake (dir : Nat)
  | timestamp
  | make (label : String) (dir : Nat)
  | scan
deriving DecidableEq

/-- Run one external stage: the event is recorded, and the
continuation depends on the outcome.  `catchTimeout` is true exactly
for the `emconfigure` call site, whose surrounding `try` swallows
`TimeoutExpired`. -/
def stageStep (ev : Ev) (o : CommOutcome) (catchTimeout : Bool) (tr : List Ev) :
    Except Exn (List Ev) :=
  match (run_with_logs o "").outcome with
  | .ok _ => .ok (tr ++ [ev])
  | .error .timeoutExpired =>
    if catchTimeout then .ok (tr ++ [ev]) else .error .timeoutExpired
  | .error e => .error e

/-- The configure stage (lines 200-233): runs only when a `configure`
script was found; its timeout is caught at the call site. -/
def configurePhase (w : CascadeWorld) (tr : List Ev) : Except Exn (List Ev) :=
  match w.configureDir with
  | none => .ok tr
  | some d => stageStep (.configure d) w.configureOutcome true tr

/-- The cmake stage (lines 235-254): runs only when a `CMakeLists.txt`
was found; nothing catches its timeout. -/
def cmakePhase (w : CascadeWorld) (tr : List Ev) : Except Exn (List Ev) :=
  match w.cmakeDir with
  | none => .ok tr
  | some d => stageStep (.cmake d) w.cmakeOutcome false tr

/-- Line 279: make in the configure directory when it differs from the
source root. -/
def makeConfigureStep (w : CascadeWorld) (tr : List Ev) : Except Exn (List Ev) :=
  match w.configureDir with
  | some d =>
    if d ≠ w.rootDir then stageStep (.make "configure" d) w.makeConfigureOutcome false tr
    else .ok tr
  | none => .ok tr

/-- Line 281: make in the cmake directory when it differs from the
source root. -/
def makeCmakeStep (w : CascadeWorld) (tr : List Ev) : Except Exn (List Ev) :=
  match w.cmakeDir with
  | some d =>
    if d ≠ w.rootDir then stageStep (.make "cmake" d) w.makeCmakeOutcome false tr
    else .ok tr
  | none => .ok tr

/-- Lines 279-283: the three conditional make invocations, in source
order, the last one always at the source root. -/
def makePhase (w : CascadeWorld) (tr : List Ev) : Except Exn (List Ev) :=
  match makeConfigureStep w tr with
  | .error e => .error e
  | .ok tr1 =>
    match makeCmakeStep w tr1 with
    | .error e => .error e
    | .ok tr2 => stageStep (.make "toplevel" w.rootDir) w.makeToplevelOutcome false tr2

/-- The build cascade of one package after successful fetch and
validation: configure stage, cmake stage, pre-build timestamp, make
invocations, artifact scan.  An uncaught exception anywhere aborts the
cascade (and propagates out of the package iteration, since only
`PackageError` is caught there). -/
def cascade (w : CascadeWorld) : Except Exn (List Ev) :=
  match configurePhase w [] with
  | .error e => .error e
  | .ok tr1 =>
    match cmakePhase w tr1 with
    | .error e => .error e
    | .ok tr2 =>
      match makePhase w (tr2 ++ [Ev.timestamp]) with
      | .error e => .error e
      | .ok tr3 => .ok (tr3 ++ [Ev.scan])

/-- Whether a cascade result reached the artifact scan step. -/
def reachesScan (r : Except Exn (List Ev)) : Bool :=
  match r with
  | .ok tr => decide (Ev.scan ∈ tr)
  | .error _ => false

/-- The trace of a cascade result (empty when the cascade aborted). -/
def traceOf (r : Except Exn (List Ev)) : List Ev :=
  match r with
  | .ok tr => tr
  | .error _ => []

/-- The events the configure stage contributes to a completed trace. -/
def confEvs (w : CascadeWorld) : List Ev :=
  match w.configureDir with
  | some d => [.configure d]
  | none => []

/-- The events the cmake stage contributes to a completed trace. -/
def cmakeEvs (w : CascadeWorld) : List Ev :=
  match w.cmakeDir with
  | some d => [.cmake d]
  | none => []

/-- The make event of the configure directory, when it runs. -/
def makeConfEvs (w : CascadeWorld) : List Ev :=
  match w.configureDir with
  | some d => if d ≠ w.rootDir then [Ev.make "configure" d] else []
  | none => []

/-- The make event of the cmake directory, when it runs. -/
def makeCmakeEvs (w : CascadeWorld) : List Ev :=
  match w.cmakeDir with
  | some d => if d ≠ w.rootDir then [Ev.make "cmake" d] else []
  | none => []

/-- The make events of a completed trace, in source order. -/
def makeEvs (w : CascadeWorld) : List Ev :=
  makeConfEvs w ++ makeCmakeEvs w ++ [Ev.make "toplevel" w.rootDir]

/-- The directories of the make events of a trace, in order. -/
def makeEvDirs (tr : List Ev) : List Nat :=
  tr.filterMap (fun e => match e with | .make _ d => some d | _ => none)

/-- The make invocation the configure directory receives: one, unless
the directory is absent or is the source root. -/
def plannedConfDirs (w : CascadeWorld) : List Nat :=
  match w.configureDir with
  | some d => if d ≠ w.rootDir then [d] else []
  | none => []

/-- The make invocation the cmake directory receives: one, unless the
directory is absent or is the source root. -/
def plannedCmakeDirs (w : CascadeWorld) : List Nat :=
  match w.cmakeDir with
  | some d => if d ≠ w.rootDir then [d] else []
  | none => []

/-- The make-invocation directories the source prescribes: the
configure directory if present and different from the root, then the
cmake directory if present and different from the root, then the root
itself.  There is no deduplication between the first two. -/
def plannedMakeDirs (w : CascadeWorld) : List Nat :=
  plannedConfDirs w ++ plannedCmakeDirs w ++ [w.rootDir]

/-- True for the events that can precede the timestamp event. -/
def isSetupEv (e : Ev) : Bool :=
  match e with
  | .configure _ => true
  | .cmake _ => true
  | _ => false

/-- True for make events. -/
def isMakeEv (e : Ev) : Bool :=
  match e with
  | .make _ _ => true
  | _ => false

/-! ## sources-compile.py: archiving a successful package (lines 310-356)

A discovered artifact lives at the absolute path
`<output_dir_all>/<package>/src/<extracted-dir>/<rel>`, where `<rel>`
is its path relative to the package source root (`package_src_dir`).
The copy loop computes `f_relative = f.relative_to(output_dir_all)`
and writes the artifact to `output_dir_wasm / f_relative` (directory
part created with `mkdir(parents=True)`, then `shutil.copy2`), and,
when the contents contain the debug marker, also to
`output_dir_wasm_dwarf / f_relative`.  All of this happens only inside
`if wasm_files:`; the `success/<package>` directory is created (line
317) before any copy. -/

/-- Embedding of `pathlib.PurePath.relative_to`: drops `base` from the
front of `p`; fails when `base` is not a prefix of `p`. -/
def relative_to (p base : List String) : Option (List String) :=
  if base.isPrefixOf p then some (p.drop base.length) else none

/-- A discovered artifact: its path relative to the package source
root, and its contents. -/
structure WasmFile where
  rel : List String
  bytes : List Nat
deriving DecidableEq

/-- Absolute path of a discovered artifact, as produced by the scan
over `package_src_dir.glob`. -/
def artifactAbsPath (allRoot : List String) (pkg extracted : String) (f : WasmFile) :
    List String :=
  allRoot ++ [pkg, "src", extracted] ++ f.rel

/-- Observable writes of the archive step for one package. -/
structure ArchiveOut where
  /-- `success/<package>` was created in this run -/
  successDirCreated : Bool
  /-- destinations written below `wasm/`, as paths relative to the
  `wasm/` output root -/
  wasmCopies : List (List String)
  /-- destinations written below `wasm-dwarf/`, as paths relative to
  the `wasm-dwarf/` output root -/
  dwarfCopies : List (List String)
  /-- the accumulated log files were copied into `success/<package>` -/
  logsCopied : Bool
  /-- the `src/` subtree was moved into `success/<package>` -/
  srcMoved : Bool
deriving DecidableEq

/-- Embedding of lines 310-356: nothing happens when the scan found no
artifact; otherwise the success directory is created and every
artifact is copied under its path relative to `output_dir_all`
(computed by `relative_to`), additionally into the dwarf tree when its
bytes contain the debug marker. -/
def archive_step (allRoot : List String) (pkg extracted : String) (files : List WasmFile) :
    ArchiveOut :=
  if files.isEmpty then ⟨false, [], [], false, false⟩
  else
    ⟨true,
     files.filterMap (fun f => relative_to (artifactAbsPath allRoot pkg extracted f) allRoot),
     files.filterMap (fun f =>
       if contains_dwarf_info f.bytes then
         relative_to (artifactAbsPath allRoot pkg extracted f) allRoot
       else none),
     true, true⟩

/-- Destination following the words of the claim: into
`wasm/<package>/` under the path of the artifact relative to the
package source root.  This is the reference for the refinement
comparison with the destinations `archive_step` produces. -/
def claimed_wasm_dst (wasmRoot : List String) (pkg : String) (f : WasmFile) : List String :=
  wasmRoot ++ [pkg] ++ f.rel

/-! ## sources-compile.py: the package loop (lines 117-371)

Per package: the skip-if-exists check (lines 120-124) comes first; when
`all/<package>` already exists the iteration body is a single
`continue` and nothing at all is done for the package.  Otherwise the
body runs; `except PackageError` (line 358) catches exactly
`PackageError`, after which (and equally after a normal body) the
cleanup lines 361-371 run and the loop moves on; any other exception
(`TimeoutExpired` from the cmake or make stage, `KeyboardInterrupt`)
propagates, skips the cleanup, and aborts the whole loop. -/

/-- A filesystem state: existing directories and files with their
contents, each named by its path. -/
structure FileSys where
  dirs : List (List String)
  files : List (List String × List Nat)
deriving DecidableEq

/-- One iteration of the package loop over a filesystem, with the work
performed recorded as an action list.  `body` is the whole non-skip
part of the iteration (fetch, build cascade, scan, archive, cleanup);
the skip branch of lines 120-124 performs no action and leaves the
filesystem untouched. -/
def packageStep (body : String → FileSys → FileSys × List String)
    (allRoot : List String) (fs : FileSys) (pkg : String) : FileSys × List String :=
  if fs.dirs.contains (allRoot ++ [pkg]) then (fs, []) else body pkg fs

/-- The driver loop over the package list. -/
def driverLoop (body : String → FileSys → FileSys × List String)
    (allRoot : List String) (fs : FileSys) : List String → FileSys × List String
  | [] => (fs, [])
  | p :: ps =>
    let step := packageStep body allRoot fs p
    let rest := driverLoop body allRoot step.1 ps
    (rest.1, step.2 ++ rest.2)

/-- How one package iteration ends: normal completion, a raised
`PackageError` (caught at line 358), or an exception that nothing in
the loop catches. -/
inductive IterOutcome : Type where
  | completed
  | pkgError
  | uncaught (e : Exn)
deriving DecidableEq

/-- What the run records for one attempted package. -/
structure IterRecord where
  name : String
  /-- the cleanup lines 361-371 of this iteration ran -/
  cleanupRan : Bool
deriving DecidableEq

/-- The exception-flow of the package loop: `completed` and `pkgError`
iterations run their cleanup and the loop continues; an uncaught
exception ends the run immediately, before the cleanup of the current
iteration and before any later package. -/
def driveLoop : List (String × IterOutcome) → List IterRecord × Option Exn
  | [] => ([], none)
  | (n, o) :: rest =>
    match o with
    | .completed =>
      let r := driveLoop rest
      (⟨n, true⟩ :: r.1, r.2)
    | .pkgError =>
      let r := driveLoop rest
      (⟨n, true⟩ :: r.1, r.2)
    | .uncaught e => ([⟨n, false⟩], some e)

/-- Bridge from the cascade result of a package body to its iteration
outcome: a cascade exception is not a `PackageError`, so it is
uncaught. -/
def iterOutcomeOfCascade (r : Except Exn (List Ev)) : IterOutcome :=
  match r with
  | .ok _ => .completed
  | .error e => .uncaught e

/-! ## Concrete inputs used in witnesses and counterexamples -/

/-- A package with no configure script, a `CMakeLists.txt` at the
source root, and an `emcmake` invocation that exceeds its budget. -/
def c1World : CascadeWorld :=
  ⟨0, none, some 0, .exited 0, .timeout, .exited 0, .exited 0, .exited 0⟩

/-- A package whose configure stage times out and whose every make
invocation exits with a non-zero code. -/
def c1OkWorld : CascadeWorld :=
  ⟨0, some 1, some 2, .timeout, .exited 0, .exited 2, .exited 2, .exited 2⟩

/-- A package whose configure and cmake stages succeed but whose
toplevel make invocation exceeds its 90-minute budget. -/
def c1MakeWorld : CascadeWorld :=
  ⟨0, some 1, some 2, .exited 0, .exited 0, .exited 0, .exited 0, .timeout⟩

/-- A source tree with a deep marker in an early sibling directory and
a shallow marker in a later one: `a/x/marker` and `b/marker`. -/
def c2tree : DirTree :=
  .node [] [("a", .node [] [("x", .node ["marker"] [])]),
            ("b", .node ["marker"] [])]

/-- A filesystem in which the directory `all/p` already exists. -/
def c3fs : FileSys := ⟨[["all", "p"]], [(["all", "p", "log"], [1, 2, 3])]⟩

/-- A body for the driver loop that would record work if it ran. -/
def c3body : String → FileSys → FileSys × List String :=
  fun pkg fs => (⟨fs.dirs, fs.files ++ [(["all", pkg, "new"], [])]⟩, ["fetched " ++ pkg])

/-- A regular Wasm file from before the pre-build timestamp. -/
def c4entry : FileEntry := ⟨["old.wasm"], true, true, 0, wasmMagic⟩

/-- A package whose toplevel make invocation is interrupted by the
operator. -/
def c6World : CascadeWorld :=
  ⟨0, none, none, .exited 0, .exited 0, .exited 0, .exited 0, .interrupted⟩

/-- A package whose configure script and CMakeLists.txt share one
directory that differs from the source root; every stage succeeds. -/
def c7World : CascadeWorld :=
  ⟨0, some 1, some 1, .exited 0, .exited 0, .exited 0, .exited 0, .exited 0⟩

/-- An artifact below a subdirectory of the package source root,
without debug info. -/
def c8file : WasmFile := ⟨["sub", "a.wasm"], wasmMagic⟩

/-! ## Helper lemmas -/

theorem takeWhile_append_all {α : Type} {p : α → Bool} {d : List α} (r : List α)
    (hd : ∀ a ∈ d, p a = true) :
    (d ++ r).takeWhile p = d ++ r.takeWhile p := by
  induction d with
  | nil => simp
  | cons x xs ih =>
    have hx : p x = true := hd x (by simp)
    have ih2 := ih (fun a ha => hd a (by simp [ha]))
    simp [List.takeWhile_cons, hx, ih2]

theorem dropWhile_append_all {α : Type} {p : α → Bool} {d : List α} (r : List α)
    (hd : ∀ a ∈ d, p a = true) :
    (d ++ r).dropWhile p = r.dropWhile p := by
  induction d with
  | nil => simp
  | cons x xs ih =>
    have hx : p x = true := hd x (by simp)
    have ih2 := ih (fun a ha => hd a (by simp [ha]))
    simp [List.dropWhile_cons, hx, ih2]

theorem takeWhile_all_mem {α : Type} {p : α → Bool} {l : List α} :
    ∀ a ∈ l.takeWhile p, p a = true :=
  fun _ ha => List.mem_takeWhile_imp ha

theorem stageStep_exited (ev : Ev) (c : Int) (b : Bool) (tr : List Ev) :
    stageStep ev (.exited c) b tr = .ok (tr ++ [ev]) := rfl

theorem stageStep_timeout_caught (ev : Ev) (tr : List Ev) :
    stageStep ev .timeout true tr = .ok (tr ++ [ev]) := rfl

theorem stageStep_timeout_raises (ev : Ev) (tr : List Ev) :
    stageStep ev .timeout false tr = .error .timeoutExpired := rfl

theorem stageStep_interrupted (ev : Ev) (b : Bool) (tr : List Ev) :
    stageStep ev .interrupted b tr = .error .keyboardInterrupt := rfl

theorem stageStep_ok {ev : Ev} {o : CommOutcome} {b : Bool} {tr tr' : List Ev}
    (h : stageStep ev o b tr = .ok tr') : tr' = tr ++ [ev] := by
  cases o with
  | exited c =>
    rw [stageStep_exited] at h
    injection h with h
    exact h.symm
  | timeout =>
    cases b with
    | true =>
      rw [stageStep_timeout_caught] at h
      injection h with h
      exact h.symm
    | false =>
      rw [stageStep_timeout_raises] at h
      exact Except.noConfusion h
  | interrupted =>
    rw [stageStep_interrupted] at h
    exact Except.noConfusion h

theorem configurePhase_ok {w : CascadeWorld} {tr tr' : List Ev}
    (h : configurePhase w tr = .ok tr') : tr' = tr ++ confEvs w := by
  unfold configurePhase at h
  cases hc : w.configureDir with
  | none =>
    simp only [hc] at h
    injection h with h
    simp [confEvs, hc, ← h]
  | some d =>
    simp only [hc] at h
    simp [confEvs, hc, stageStep_ok h]

theorem cmakePhase_ok {w : CascadeWorld} {tr tr' : List Ev}
    (h : cmakePhase w tr = .ok tr') : tr' = tr ++ cmakeEvs w := by
  unfold cmakePhase at h
  cases hc : w.cmakeDir with
  | none =>
    simp only [hc] at h
    injection h with h
    simp [cmakeEvs, hc, ← h]
  | some d =>
    simp only [hc] at h
    simp [cmakeEvs, hc, stageStep_ok h]

theorem makeConfigureStep_ok {w : CascadeWorld} {tr tr' : List Ev}
    (h : makeConfigureStep w tr = .ok tr') : tr' = tr ++ makeConfEvs w := by
  unfold makeConfigureStep at h
  cases hc : w.configureDir with
  | none =>
    simp only [hc] at h
    injection h with h
    simp [makeConfEvs, hc, ← h]
  | some d =>
    simp only [hc] at h
    by_cases hd : d ≠ w.rootDir
    · rw [if_pos hd] at h
      simp [makeConfEvs, hc, hd, stageStep_ok h]
    · rw [if_neg hd] at h
      injection h with h
      simp [makeConfEvs, hc, hd, ← h]

theorem makeCmakeStep_ok {w : CascadeWorld} {tr tr' : List Ev}
    (h : makeCmakeStep w tr = .ok tr') : tr' = tr ++ makeCmakeEvs w := by
  unfold makeCmakeStep at h
  cases hc : w.cmakeDir with
  | none =>
    simp only [hc] at h
    injection h with h
    simp [makeCmakeEvs, hc, ← h]
  | some d =>
    simp only [hc] at h
    by_cases hd : d ≠ w.rootDir
    · rw [if_pos hd] at h
      simp [makeCmakeEvs, hc, hd, stageStep_ok h]
    · rw [if_neg hd] at h
      injection h with h
      simp [makeCmakeEvs, hc, hd, ← h]

theorem makePhase_ok {w : CascadeWorld} {tr tr' : List Ev}
    (h : makePhase w tr = .ok tr') : tr' = tr ++ makeEvs w := by
  unfold makePhase at h
  split at h
  next e h1 => exact Except.noConfusion h
  next tr1 h1 =>
    split at h
    next e h2 => exact Except.noConfusion h
    next tr2 h2 =>
      have e1 := makeConfigureStep_ok h1
      have e2 := makeCmakeStep_ok h2
      have e3 := stageStep_ok h
      subst e1
      subst e2
      subst e3
      simp [makeEvs]

theorem cascade_ok_trace {w : CascadeWorld} {tr : List Ev}
    (h : cascade w = .ok tr) :
    tr = confEvs w ++ cmakeEvs w ++ [Ev.timestamp] ++ makeEvs w ++ [Ev.scan] := by
  unfold cascade at h
  split at h
  next e h1 => exact Except.noConfusion h
  next tr1 h1 =>
    split at h
    next e h2 => exact Except.noConfusion h
    next tr2 h2 =>
      split at h
      next e h3 => exact Except.noConfusion h
      next tr3 h3 =>
        injection h with h
        have e1 := configurePhase_ok h1
        have e2 := cmakePhase_ok h2
        have e3 := makePhase_ok h3
        subst e1
        subst e2
        subst e3
        simp [← h]

theorem configurePhase_ok_of (w : CascadeWorld)
    (hno : ∀ d, w.configureDir = some d → w.configureOutcome ≠ .interrupted) :
    ∀ tr : List Ev, configurePhase w tr = .ok (tr ++ confEvs w) := by
  intro tr
  unfold configurePhase
  cases hc : w.configureDir with
  | none => simp [confEvs, hc]
  | some d =>
    have hni := hno d hc
    cases ho : w.configureOutcome with
    | exited c => simp [confEvs, hc, stageStep_exited]
    | timeout => simp [confEvs, hc, stageStep_timeout_caught]
    | interrupted => exact absurd ho hni

theorem cmakePhase_ok_of (w : CascadeWorld)
    (hex : ∀ d, w.cmakeDir = some d → ∃ c, w.cmakeOutcome = .exited c) :
    ∀ tr : List Ev, cmakePhase w tr = .ok (tr ++ cmakeEvs w) := by
  intro tr
  unfold cmakePhase
  cases hc : w.cmakeDir with
  | none => simp [cmakeEvs, hc]
  | some d =>
    obtain ⟨c, hco⟩ := hex d hc
    simp [cmakeEvs, hc, hco, stageStep_exited]

theorem makeConfigureStep_ok_of (w : CascadeWorld)
    (hex : ∃ c, w.makeConfigureOutcome = .exited c) :
    ∀ tr : List Ev, makeConfigureStep w tr = .ok (tr ++ makeConfEvs w) := by
  obtain ⟨c, hco⟩ := hex
  intro tr
  unfold makeConfigureStep
  cases hc : w.configureDir with
  | none => simp [makeConfEvs, hc]
  | some d =>
    by_cases hd : d ≠ w.rootDir
    · simp [makeConfEvs, hc, hd, hco, stageStep_exited]
    · simp [makeConfEvs, hc, hd]

theorem makeCmakeStep_ok_of (w : CascadeWorld)
    (hex : ∃ c, w.makeCmakeOutcome = .exited c) :
    ∀ tr : List Ev, makeCmakeStep w tr = .ok (tr ++ makeCmakeEvs w) := by
  obtain ⟨c, hco⟩ := hex
  intro tr
  unfold makeCmakeStep
  cases hc : w.cmakeDir with
  | none => simp [makeCmakeEvs, hc]
  | some d =>
    by_cases hd : d ≠ w.rootDir
    · simp [makeCmakeEvs, hc, hd, hco, stageStep_exited]
    · simp [makeCmakeEvs, hc, hd]

theorem cascade_ok_of (w : CascadeWorld)
    (hconf : ∀ d, w.configureDir = some d → w.configureOutcome ≠ .interrupted)
    (hcmake : ∀ d, w.cmakeDir = some d → ∃ c, w.cmakeOutcome = .exited c)
    (hmc : ∃ c, w.makeConfigureOutcome = .exited c)
    (hmk : ∃ c, w.makeCmakeOutcome = .exited c)
    (hmt : ∃ c, w.makeToplevelOutcome = .exited c) :
    cascade w = .ok (confEvs w ++ cmakeEvs w ++ [Ev.timestamp] ++ makeEvs w ++ [Ev.scan]) := by
  obtain ⟨ct, hct⟩ := hmt
  simp only [cascade, makePhase, configurePhase_ok_of w hconf, cmakePhase_ok_of w hcmake,
    makeConfigureStep_ok_of w hmc, makeCmakeStep_ok_of w hmk, hct, stageStep_exited,
    makeEvs, List.nil_append, List.append_assoc]

theorem confEvs_all_setup (w : CascadeWorld) : (confEvs w).all isSetupEv = true := by
  unfold confEvs
  cases w.configureDir <;> simp [isSetupEv]

theorem cmakeEvs_all_setup (w : CascadeWorld) : (cmakeEvs w).all isSetupEv = true := by
  unfold cmakeEvs
  cases w.cmakeDir <;> simp [isSetupEv]

theorem makeEvs_all_make (w : CascadeWorld) : (makeEvs w).all isMakeEv = true := by
  unfold makeEvs makeConfEvs makeCmakeEvs
  cases w.configureDir <;> cases w.cmakeDir <;> simp [isMakeEv]

theorem makeEvDirs_append (l1 l2 : List Ev) :
    makeEvDirs (l1 ++ l2) = makeEvDirs l1 ++ makeEvDirs l2 :=
  List.filterMap_append ..

theorem makeEvDirs_confEvs (w : CascadeWorld) : makeEvDirs (confEvs w) = [] := by
  unfold confEvs
  cases w.configureDir <;> simp [makeEvDirs]

theorem makeEvDirs_cmakeEvs (w : CascadeWorld) : makeEvDirs (cmakeEvs w) = [] := by
  unfold cmakeEvs
  cases w.cmakeDir <;> simp [makeEvDirs]

theorem makeEvDirs_makeConfEvs (w : CascadeWorld) :
    makeEvDirs (makeConfEvs w) = plannedConfDirs w := by
  unfold makeConfEvs plannedConfDirs
  cases w.configureDir with
  | none => rfl
  | some d => by_cases hd : d = w.rootDir <;> simp [makeEvDirs, hd]

theorem makeEvDirs_makeCmakeEvs (w : CascadeWorld) :
    makeEvDirs (makeCmakeEvs w) = plannedCmakeDirs w := by
  unfold makeCmakeEvs plannedCmakeDirs
  cases w.cmakeDir with
  | none => rfl
  | some d => by_cases hd : d = w.rootDir <;> simp [makeEvDirs, hd]

theorem relative_to_append (base rest : List String) :
    relative_to (base ++ rest) base = some rest := by
  have hp : base.isPrefixOf (base ++ rest) = true := by
    rw [List.isPrefixOf_iff_prefix]
    exact List.prefix_append base rest
  simp [relative_to, hp, List.drop_left]

theorem archive_step_wasmCopies_eq (allRoot : List String) (pkg extracted : String)
    (files : List WasmFile) :
    (archive_step allRoot pkg extracted files).wasmCopies
      = files.map (fun f => [pkg, "src", extracted] ++ f.rel) := by
  have hrel : ∀ f : WasmFile,
      relative_to (artifactAbsPath allRoot pkg extracted f) allRoot
        = some ([pkg, "src", extracted] ++ f.rel) := by
    intro f
    rw [artifactAbsPath, List.append_assoc]
    exact relative_to_append allRoot _
  unfold archive_step
  split
  next hf =>
    rw [List.isEmpty_iff] at hf
    subst hf
    rfl
  next hf =>
    simp only
    induction files with
    | nil => rfl
    | cons f fs ih =>
      rw [List.filterMap_cons, hrel, List.map_cons]
      cases fs with
      | nil => rfl
      | cons g gs => rw [ih (by simp)]

theorem archive_step_dwarfCopies_eq (allRoot : List String) (pkg extracted : String)
    (files : List WasmFile) :
    (archive_step allRoot pkg extracted files).dwarfCopies
      = (files.filter (fun f => contains_dwarf_info f.bytes)).map
          (fun f => [pkg, "src", extracted] ++ f.rel) := by
  have hrel : ∀ f : WasmFile,
      relative_to (artifactAbsPath allRoot pkg extracted f) allRoot
        = some ([pkg, "src", extracted] ++ f.rel) := by
    intro f
    rw [artifactAbsPath, List.append_assoc]
    exact relative_to_append allRoot _
  unfold archive_step
  split
  next hf =>
    rw [List.isEmpty_iff] at hf
    subst hf
    rfl
  next hf =>
    simp only
    induction files with
    | nil => rfl
    | cons f fs ih =>
      rw [List.filterMap_cons, List.filter_cons]
      by_cases hd : contains_dwarf_info f.bytes = true
      · rw [if_pos hd, hrel, if_pos hd, List.map_cons]
        cases fs with
        | nil => rfl
        | cons g gs => rw [ih (by simp)]
      · rw [Bool.not_eq_true] at hd
        rw [hd]
        simp only [Bool.false_eq_true, if_false]
        cases fs with
        | nil => rfl
        | cons g gs => rw [ih (by simp)]

/-! ## Claim C10 -/

/-- Claim C10 (amended): `parse_range_argument` returns a pair
`(start, stop)` with `start < stop` exactly when the string is
`<digits>..<digits>` followed by nothing or by one final newline (the
trailing newline is accepted by the `$` anchor of the Python regex),
with the second number strictly greater than the first; every other
string raises `ArgumentTypeError`. -/
theorem c10_amended_range_parse (s : List Char) (a b : Nat) :
    parse_range_argument s = .ok (a, b) ↔
      ∃ d1 d2 t, s = d1 ++ '.' :: '.' :: (d2 ++ t)
        ∧ d1 ≠ [] ∧ d2 ≠ []
        ∧ (∀ c ∈ d1, c.isDigit = true) ∧ (∀ c ∈ d2, c.isDigit = true)
        ∧ (t = [] ∨ t = ['\n'])
        ∧ a = digitsToNat d1 ∧ b = digitsToNat d2 ∧ a < b := by
  constructor
  · intro h
    simp only [parse_range_argument] at h
    split_ifs at h with h1 h2 h3 h4 h5
    rw [Except.ok.injEq, Prod.mk.injEq] at h
    obtain ⟨ha, hb⟩ := h
    have hs : s = s.takeWhile Char.isDigit ++ s.dropWhile Char.isDigit :=
      (List.takeWhile_append_dropWhile _ _).symm
    have hr : s.dropWhile Char.isDigit
        = '.' :: '.' :: ((s.dropWhile Char.isDigit).drop 2) := by
      conv_lhs => rw [← List.take_append_drop 2 (s.dropWhile Char.isDigit)]
      rw [h2]
      rfl
    have hr2 : (s.dropWhile Char.isDigit).drop 2
        = ((s.dropWhile Char.isDigit).drop 2).takeWhile Char.isDigit
          ++ ((s.dropWhile Char.isDigit).drop 2).dropWhile Char.isDigit :=
      (List.takeWhile_append_dropWhile _ _).symm
    refine ⟨_, _, _, ?_, h1, h3, takeWhile_all_mem, takeWhile_all_mem, h4,
      ha.symm, hb.symm, ?_⟩
    · conv_lhs => rw [hs, hr, hr2]
    · rw [← ha, ← hb]; exact h5
  · rintro ⟨d1, d2, t, hs, h1, h2, hd1, hd2, ht, ha, hb, hab⟩
    subst hs
    subst ha
    subst hb
    have hdot : Char.isDigit '.' = false := rfl
    have htake1 : (d1 ++ '.' :: '.' :: (d2 ++ t)).takeWhile Char.isDigit = d1 := by
      rw [takeWhile_append_all _ hd1, List.takeWhile_cons]
      simp [hdot]
    have hdrop1 : (d1 ++ '.' :: '.' :: (d2 ++ t)).dropWhile Char.isDigit
        = '.' :: '.' :: (d2 ++ t) := by
      rw [dropWhile_append_all _ hd1, List.dropWhile_cons]
      simp [hdot]
    have httake : t.takeWhile Char.isDigit = [] := by
      rcases ht with h | h <;> subst h <;> rfl
    have htdrop : t.dropWhile Char.isDigit = t := by
      rcases ht with h | h <;> subst h <;> rfl
    have htake2 : (d2 ++ t).takeWhile Char.isDigit = d2 := by
      rw [takeWhile_append_all _ hd2, httake, List.append_nil]
    have hdrop2 : (d2 ++ t).dropWhile Char.isDigit = t := by
      rw [dropWhile_append_all _ hd2, htdrop]
    simp only [parse_range_argument, htake1, hdrop1, List.take_succ_cons,
      List.take_zero, List.drop_succ_cons, List.drop_zero, htake2, hdrop2]
    simp [h1, h2, ht, hab]

/-- Claim C10 counterexample: the Python anchor `$` also matches just
before one final newline, so the input `"1..2\n"` is accepted and
`(1, 2)` is returned, although the whole string does not have the form
`<digits>..<digits>`. -/
theorem c10_counterexample :
    parse_range_argument ['1', '.', '.', '2', '\n'] = .ok (1, 2)
    ∧ claimed_accepts ['1', '.', '.', '2', '\n'] = false :=
  ⟨rfl, rfl⟩

/-- Witness for C10: a concrete accepted range. -/
theorem c10_witness : parse_range_argument ['3', '.', '.', '7'] = .ok (3, 7) :=
  (c10_amended_range_parse ['3', '.', '.', '7'] 3 7).mpr
    ⟨['3'], ['7'], [], rfl, by decide, by decide, by decide, by decide,
      Or.inl rfl, rfl, rfl, by decide⟩

/-! ## Claim C2 -/

/-- Claim C2: `os.walk` is a depth-first pre-order traversal, not a
breadth-first one, so on a tree with the markers `a/x/marker` (depth 3
below the root) and `b/marker` (depth 2) the first element of the
returned sequence is the deeper match, although a shallower match
exists later in the sequence.  This contradicts the doc comment of
`find_by_filename_bfs` itself (BFS order, topmost file first) and the
spec. -/
theorem c2_walk_order_bug :
    find_by_filename_bfs [] "marker" c2tree = [["a", "x", "marker"], ["b", "marker"]]
    ∧ pathDepthBelow [] ["a", "x", "marker"] = 3
    ∧ pathDepthBelow [] ["b", "marker"] = 2 :=
  ⟨rfl, rfl, rfl⟩

/-! ## Claim C1 -/

/-- Claim C1 (amended): a stage failure by non-zero exit code never
terminates the cascade, and a timeout of the configure stage is caught
at its call site, so in both cases all later stages run and the scan
step is reached; but a timeout of the cmake stage, and likewise a
timeout of any of the three make invocations (in the configure
directory, in the cmake directory, or at the source root), is caught
nowhere and propagates, aborting the cascade before the scan step. -/
theorem c1_amended_stage_failures :
    (∀ w : CascadeWorld,
      (∀ d, w.configureDir = some d → w.configureOutcome ≠ .interrupted) →
      (∀ d, w.cmakeDir = some d → ∃ c, w.cmakeOutcome = .exited c) →
      (∃ c, w.makeConfigureOutcome = .exited c) →
      (∃ c, w.makeCmakeOutcome = .exited c) →
      (∃ c, w.makeToplevelOutcome = .exited c) →
      reachesScan (cascade w) = true)
    ∧ (∀ (w : CascadeWorld) (d : Nat),
        (∀ dc, w.configureDir = some dc → w.configureOutcome ≠ .interrupted) →
        w.cmakeDir = some d → w.cmakeOutcome = .timeout →
        cascade w = .error .timeoutExpired)
    ∧ (∀ (w : CascadeWorld) (d : Nat),
        (∀ dc, w.configureDir = some dc → w.configureOutcome ≠ .interrupted) →
        (∀ dc, w.cmakeDir = some dc → ∃ c, w.cmakeOutcome = .exited c) →
        w.configureDir = some d → d ≠ w.rootDir →
        w.makeConfigureOutcome = .timeout →
        cascade w = .error .timeoutExpired)
    ∧ (∀ (w : CascadeWorld) (d : Nat),
        (∀ dc, w.configureDir = some dc → w.configureOutcome ≠ .interrupted) →
        (∀ dc, w.cmakeDir = some dc → ∃ c, w.cmakeOutcome = .exited c) →
        (∃ c, w.makeConfigureOutcome = .exited c) →
        w.cmakeDir = some d → d ≠ w.rootDir →
        w.makeCmakeOutcome = .timeout →
        cascade w = .error .timeoutExpired)
    ∧ (∀ w : CascadeWorld,
        (∀ dc, w.configureDir = some dc → w.configureOutcome ≠ .interrupted) →
        (∀ dc, w.cmakeDir = some dc → ∃ c, w.cmakeOutcome = .exited c) →
        (∃ c, w.makeConfigureOutcome = .exited c) →
        (∃ c, w.makeCmakeOutcome = .exited c) →
        w.makeToplevelOutcome = .timeout →
        cascade w = .error .timeoutExpired) := by
  refine ⟨?_, ?_, ?_, ?_, ?_⟩
  · intro w hconf hcmake hmc hmk hmt
    rw [cascade_ok_of w hconf hcmake hmc hmk hmt]
    simp [reachesScan]
  · intro w d hconf hd ht
    simp only [cascade, configurePhase_ok_of w hconf, List.nil_append]
    simp [cmakePhase, hd, ht, stageStep_timeout_raises]
  · intro w d hconf hcmake hd hdne ht
    simp only [cascade, makePhase, configurePhase_ok_of w hconf,
      cmakePhase_ok_of w hcmake, List.nil_append]
    simp [makeConfigureStep, hd, hdne, ht, stageStep_timeout_raises]
  · intro w d hconf hcmake hmc hd hdne ht
    simp only [cascade, makePhase, configurePhase_ok_of w hconf,
      cmakePhase_ok_of w hcmake, makeConfigureStep_ok_of w hmc, List.nil_append]
    simp [makeCmakeStep, hd, hdne, ht, stageStep_timeout_raises]
  · intro w hconf hcmake hmc hmk ht
    simp only [cascade, makePhase, configurePhase_ok_of w hconf,
      cmakePhase_ok_of w hcmake, makeConfigureStep_ok_of w hmc,
      makeCmakeStep_ok_of w hmk, ht, stageStep_timeout_raises, List.nil_append]

/-- Claim C1 counterexample: a package with a `CMakeLists.txt` whose
`emcmake` invocation times out; the `TimeoutExpired` exception is not
caught at this call site, so the cascade aborts and the scan step is
never reached. -/
theorem c1_counterexample :
    cascade c1World = .error .timeoutExpired
    ∧ reachesScan (cascade c1World) = false :=
  ⟨rfl, rfl⟩

/-- Witness for C1: a package whose configure stage times out and
whose every make invocation exits non-zero still reaches the scan,
while a package whose toplevel make invocation times out aborts with
the uncaught timeout. -/
theorem c1_witness :
    reachesScan (cascade c1OkWorld) = true
    ∧ cascade c1MakeWorld = .error .timeoutExpired :=
  ⟨c1_amended_stage_failures.1 c1OkWorld (fun _ _ => by decide) (fun _ _ => ⟨0, rfl⟩)
      ⟨2, rfl⟩ ⟨2, rfl⟩ ⟨2, rfl⟩,
   c1_amended_stage_failures.2.2.2.2 c1MakeWorld (fun _ _ => by decide)
      (fun _ _ => ⟨0, rfl⟩) ⟨0, rfl⟩ ⟨0, rfl⟩ rfl⟩

/-! ## Claims C4 and C5 -/

/-- Claim C4: the scanner excludes a file whose modification time is
strictly before the pre-build timestamp and includes a file whose
modification time is at or after it (subject to the magic-byte check,
for resolvable regular files); and in every completed cascade trace
the timestamp is recorded after the configure and cmake stages and
before every make invocation. -/
theorem c4_time_filter_correct :
    (∀ (entries : List FileEntry) (since : Nat) (e : FileEntry), e ∈ entries →
      (e.mtime < since → e ∉ wasm_files_scan entries since)
      ∧ (since ≤ e.mtime →
          (e ∈ wasm_files_scan entries since ↔
            e.resolvable = true ∧ e.isFile = true
              ∧ is_wasm_file_by_magic_bytes e.bytes = true)))
    ∧ (∀ (w : CascadeWorld) (tr : List Ev), cascade w = .ok tr →
        ∃ pre mk, tr = pre ++ [Ev.timestamp] ++ mk ++ [Ev.scan]
          ∧ pre.all isSetupEv = true ∧ mk.all isMakeEv = true) := by
  constructor
  · intro entries since e he
    constructor
    · intro hlt hmem
      rw [wasm_files_scan, List.mem_filter] at hmem
      have hk := hmem.2
      simp [scanKeep, hlt] at hk
    · intro hge
      rw [wasm_files_scan, List.mem_filter]
      have hnot : ¬ e.mtime < since := by omega
      simp [scanKeep, hnot, he, and_assoc]
  · intro w tr h
    refine ⟨confEvs w ++ cmakeEvs w, makeEvs w, ?_, ?_, makeEvs_all_make w⟩
    · simp [cascade_ok_trace h]
    · rw [List.all_append, confEvs_all_setup, cmakeEvs_all_setup]
      rfl

/-- Witness for C4: a Wasm-format file from before the timestamp is
excluded from the scan. -/
theorem c4_witness : c4entry ∉ wasm_files_scan [c4entry] 5 :=
  (c4_time_filter_correct.1 [c4entry] 5 c4entry (List.mem_singleton.mpr rfl)).1
    (by decide)

/-- Claim C5: a file is classified as an artifact exactly when its
first four bytes are the fixed magic signature, independently of its
path (name and extension); a file with fewer than four bytes is never
classified as an artifact, and every file kept by the scan has the
magic signature. -/
theorem c5_magic_byte_classification :
    (∀ bytes : List Nat, is_wasm_file_by_magic_bytes bytes = true ↔ bytes.take 4 = wasmMagic)
    ∧ (∀ bytes : List Nat, bytes.length < 4 → is_wasm_file_by_magic_bytes bytes = false)
    ∧ (∀ (since : Nat) (e : FileEntry) (p : List String),
        scanKeep since (withPath e p) = scanKeep since e)
    ∧ (∀ (entries : List FileEntry) (since : Nat) (e : FileEntry),
        e ∈ wasm_files_scan entries since → e.bytes.take 4 = wasmMagic) := by
  refine ⟨?_, ?_, ?_, ?_⟩
  · intro bytes
    simp [is_wasm_file_by_magic_bytes]
  · intro bytes h
    simp only [is_wasm_file_by_magic_bytes, beq_eq_false_iff_ne, ne_eq]
    intro heq
    have hlen := congrArg List.length heq
    rw [List.length_take] at hlen
    simp [wasmMagic] at hlen
    omega
  · intro since e p
    rfl
  · intro entries since e hmem
    rw [wasm_files_scan, List.mem_filter] at hmem
    have hk := hmem.2
    simp only [scanKeep, Bool.and_eq_true, is_wasm_file_by_magic_bytes,
      beq_iff_eq] at hk
    exact hk.2

/-- Witness for C5: a two-byte file is not an artifact. -/
theorem c5_witness : is_wasm_file_by_magic_bytes [0x00, 0x61] = false :=
  c5_magic_byte_classification.2.1 [0x00, 0x61] (by decide)

/-! ## Claim C7 -/

/-- Claim C7 (amended): when the cascade completes, the configure and
cmake stages both execute whenever their markers are present, and the
make invocations are exactly: one in the configure directory if it
differs from the source root, one in the cmake directory if it differs
from the source root, and one at the source root.  Coincidence with
the root is deduplicated, but there is no deduplication between the
configure directory and the cmake directory: when they coincide and
differ from the root, that directory receives two make invocations. -/
theorem c7_amended_make_per_directory :
    (∀ (w : CascadeWorld) (tr : List Ev), cascade w = .ok tr →
      makeEvDirs tr = plannedMakeDirs w)
    ∧ (∀ (w : CascadeWorld) (tr : List Ev), cascade w = .ok tr →
        (∀ d, w.configureDir = some d → Ev.configure d ∈ tr)
        ∧ (∀ d, w.cmakeDir = some d → Ev.cmake d ∈ tr)) := by
  constructor
  · intro w tr h
    rw [cascade_ok_trace h]
    simp only [makeEvDirs_append, makeEvDirs_confEvs, makeEvDirs_cmakeEvs,
      makeEvs, makeEvDirs_makeConfEvs, makeEvDirs_makeCmakeEvs]
    simp [makeEvDirs, plannedMakeDirs]
  · intro w tr h
    rw [cascade_ok_trace h]
    constructor
    · intro d hd
      simp [confEvs, hd]
    · intro d hd
      simp [cmakeEvs, hd]

/-- Claim C7 counterexample: configure directory = cmake directory =
directory 1 ≠ root; the completed trace contains two make invocations
in directory 1, not one. -/
theorem c7_counterexample :
    makeEvDirs (traceOf (cascade c7World)) = [1, 1, 0]
    ∧ (makeEvDirs (traceOf (cascade c7World))).count 1 = 2 :=
  ⟨rfl, rfl⟩

/-- Witness for C7: in the counterexample world the planned make
directories are produced exactly. -/
theorem c7_witness : makeEvDirs (traceOf (cascade c7World)) = plannedMakeDirs c7World :=
  c7_amended_make_per_directory.1 c7World (traceOf (cascade c7World)) rfl

/-! ## Claim C3 -/

/-- Claim C3: when the directory `all/<package>` already exists at the
start of an iteration, that iteration performs no work at all and
leaves the filesystem (directories and file bytes) untouched; hence a
driver run over a package list whose every package already has its
`all/<name>` directory leaves the output tree byte-identical and
performs no action. -/
theorem c3_skip_is_noop :
    (∀ (body : String → FileSys → FileSys × List String) (allRoot : List String)
        (fs : FileSys) (pkg : String),
      fs.dirs.contains (allRoot ++ [pkg]) = true →
      packageStep body allRoot fs pkg = (fs, []))
    ∧ (∀ (body : String → FileSys → FileSys × List String) (allRoot : List String)
        (fs : FileSys) (pkgs : List String),
      (∀ p ∈ pkgs, fs.dirs.contains (allRoot ++ [p]) = true) →
      driverLoop body allRoot fs pkgs = (fs, [])) := by
  have hstep : ∀ (body : String → FileSys → FileSys × List String)
      (allRoot : List String) (fs : FileSys) (pkg : String),
      fs.dirs.contains (allRoot ++ [pkg]) = true →
      packageStep body allRoot fs pkg = (fs, []) := by
    intro body allRoot fs pkg h
    unfold packageStep
    rw [if_pos h]
  refine ⟨hstep, ?_⟩
  intro body allRoot fs pkgs hall
  induction pkgs with
  | nil => rfl
  | cons p ps ih =>
    have h1 := hstep body allRoot fs p (hall p (by simp))
    have h2 := ih (fun q hq => hall q (by simp [hq]))
    simp [driverLoop, h1, h2]

/-- Witness for C3: a repeated package list over a filesystem that
already has the `all/p` directory is left untouched. -/
theorem c3_witness : driverLoop c3body ["all"] c3fs ["p", "p"] = (c3fs, []) :=
  c3_skip_is_noop.2 c3body ["all"] c3fs ["p", "p"] (by decide)

/-! ## Claim C6 -/

/-- Claim C6 (amended): a cancellation signal arriving during an
external command force-kills the active process group and re-raises;
since the per-package handler catches only `PackageError`, the
interrupt then aborts the current package (skipping its cleanup) and
the entire run — no later package is processed.  A `PackageError`, in
contrast, is confined to its iteration. -/
theorem c6_amended_interrupt_aborts :
    (∀ s : String, (run_with_logs .interrupted s).groupKilled = true
      ∧ (run_with_logs .interrupted s).outcome = .error .keyboardInterrupt)
    ∧ (∀ (n : String) (e : Exn) (rest : List (String × IterOutcome)),
        driveLoop ((n, .uncaught e) :: rest) = ([⟨n, false⟩], some e))
    ∧ (∀ (n : String) (rest : List (String × IterOutcome)),
        driveLoop ((n, .pkgError) :: rest)
          = (⟨n, true⟩ :: (driveLoop rest).1, (driveLoop rest).2)) :=
  ⟨fun _ => ⟨rfl, rfl⟩, fun _ _ _ => rfl, fun _ _ => rfl⟩

/-- Claim C6 counterexample: an operator interrupt during the toplevel
make of the first package ends the whole run: the first package never
reaches its cleanup and the second package is never processed, so the
loop does not resume with the next package. -/
theorem c6_counterexample :
    driveLoop [("pkg1", iterOutcomeOfCascade (cascade c6World)), ("pkg2", .completed)]
      = ([⟨"pkg1", false⟩], some .keyboardInterrupt) :=
  rfl

/-! ## Claims C8 and C9 -/

/-- Claim C8 (amended): every discovered artifact is copied below
`wasm/` under its path relative to the `all/` output directory — that
is, to `wasm/<package>/src/<extracted-dir>/<path-relative-to-source-root>`,
not to `wasm/<package>/<path-relative-to-source-root>` — and
additionally below `wasm-dwarf/` under the same relative path exactly
when its bytes contain the debug-info marker. -/
theorem c8_amended_copy_destinations (allRoot : List String) (pkg extracted : String)
    (files : List WasmFile) :
    (archive_step allRoot pkg extracted files).wasmCopies
      = files.map (fun f => [pkg, "src", extracted] ++ f.rel)
    ∧ (archive_step allRoot pkg extracted files).dwarfCopies
      = (files.filter (fun f => contains_dwarf_info f.bytes)).map
          (fun f => [pkg, "src", extracted] ++ f.rel) :=
  ⟨archive_step_wasmCopies_eq allRoot pkg extracted files,
   archive_step_dwarfCopies_eq allRoot pkg extracted files⟩

/-- Claim C8 counterexample: an artifact at `sub/a.wasm` below the
source root of package `pkg` (extracted directory `pkg-1.0`) is
written to `wasm/pkg/src/pkg-1.0/sub/a.wasm`, which differs from the
destination the claim states, `wasm/pkg/sub/a.wasm`. -/
theorem c8_counterexample :
    (archive_step ["out", "all"] "pkg" "pkg-1.0" [c8file]).wasmCopies
      = [["pkg", "src", "pkg-1.0", "sub", "a.wasm"]]
    ∧ ["wasm"] ++ ["pkg", "src", "pkg-1.0", "sub", "a.wasm"]
      ≠ claimed_wasm_dst ["wasm"] "pkg" c8file :=
  ⟨rfl, by decide⟩

/-- Claim C9: the success directory of a package is created exactly
when the scan of that run found at least one artifact; entries below
`wasm/` are written only when the success directory was created; and
every path written below `wasm-dwarf/` is also written below
`wasm/`. -/
theorem c9_success_archive_invariant (allRoot : List String) (pkg extracted : String)
    (files : List WasmFile) :
    ((archive_step allRoot pkg extracted files).successDirCreated = true ↔ files ≠ [])
    ∧ ((archive_step allRoot pkg extracted files).wasmCopies ≠ [] →
        (archive_step allRoot pkg extracted files).successDirCreated = true)
    ∧ (∀ r ∈ (archive_step allRoot pkg extracted files).dwarfCopies,
        r ∈ (archive_step allRoot pkg extracted files).wasmCopies) := by
  refine ⟨?_, ?_, ?_⟩
  · cases files with
    | nil => simp [archive_step]
    | cons f fs => simp [archive_step]
  · intro hw
    cases files with
    | nil => exact absurd (archive_step_wasmCopies_eq allRoot pkg extracted []) hw
    | cons f fs => simp [archive_step]
  · intro r hr
    rw [archive_step_dwarfCopies_eq] at hr
    rw [archive_step_wasmCopies_eq]
    obtain ⟨f, hf, hfr⟩ := List.mem_map.mp hr
    exact List.mem_map.mpr ⟨f, List.mem_of_mem_filter hf, hfr⟩

/-- Witness for C9: one artifact suffices for the success directory. -/
theorem c9_witness :
    (archive_step ["out", "all"] "p" "p-1.0" [c8file]).successDirCreated = true :=
  (c9_success_archive_invariant ["out", "all"] "p" "p-1.0" [c8file]).1.mpr (by simp)

end WasmCollect
